import Mathlib

set_option linter.unusedVariables false

/-!
Verification of the Fadroma deployment framework core (TypeScript sources)
against its natural-language specification.

The TypeScript classes are shallowly embedded: class instances become Lean
structures, mutating methods become state-passing functions, thrown errors
become `Except` results, and promises/tasks are represented by explicit
result markers.  Each definition mirrors one source function; doc comments
name the source location.
-/

namespace Fadroma

/-! ## Bundle (packages/client: `Bundle` class)

A `Bundle` collects messages to broadcast as a single transaction.  The
source keeps a `depth` counter for nested bundles, a monotonically
increasing message id `id`, and a sparse array `msgs` written at index
`id` by `add`.  JS numbers are modelled as `Int` for `depth` (which the
source can drive below zero) and `Nat` for the message counter. -/

/-- Responses of the wrapped `Agent` used by a `Bundle` for the
time-invariant read operations that are permitted inside a bundle,
plus the agent's `address` inherited by the bundle. -/
structure AgentResponses where
  address : Option String
  getCodeId : String → String
  getLabel : String → String
  getHash : String → String
  checkHash : String → Option String → String

/-- A message record appended to the bundle's log by `init` / `execute`.
Message payloads (`Message = string|Record`) are opaque strings; funds are
opaque coin lists. -/
inductive BundleMsg where
  | init (sender : Option String) (codeId : String) (codeHash : Option String)
      (label : String) (msg : String) (funds : List String)
  | exec (sender : Option String) (contract : Option String)
      (codeHash : Option String) (msg : String) (funds : Option (List String))
deriving DecidableEq, Repr

/-- The mutable state of a `Bundle`: the wrapped agent, the nesting
`depth`, the next message id and the message log (a JS array written by
index, modelled as a partial map from indices). -/
structure Bundle where
  agent : AgentResponses
  depth : Int
  id : Nat
  msgs : Nat → Option BundleMsg

/-- A fresh bundle as produced by the `Bundle` constructor:
`depth = 0`, `id = 0`, empty message log. -/
def mkBundle (a : AgentResponses) : Bundle :=
  { agent := a, depth := 0, id := 0, msgs := fun _ => none }

/-- `Bundle.add`: `const id = this.id++; this.msgs[id] = msg; return id`. -/
def Bundle.add (b : Bundle) (m : BundleMsg) : Nat × Bundle :=
  (b.id,
   { b with
     id := b.id + 1,
     msgs := fun k => if k = b.id then some m else b.msgs k })

/-- `Bundle.bundle`: nested bundles are flattened; the depth counter is
incremented and the same bundle is returned
(`console.warn('Nest bundles with care. Depth:', ++this.depth); return this`). -/
def Bundle.bundle (b : Bundle) : Bundle :=
  { b with depth := b.depth + 1 }

/-- Result of `Bundle.run`: either the literal `null` returned while
unnesting, or a call to `submit(memo)`. -/
inductive RunResult where
  | null
  | submit (memo : String)
deriving DecidableEq, Repr

/-- `Bundle.run(memo)`.  Note the source decrements `depth` twice when
`depth > 0`: once inside the log call (`--this.depth`) and once more on
the following line (`this.depth--`); this is mirrored by `- 1 - 1`. -/
def Bundle.run (b : Bundle) (memo : String) : RunResult × Bundle :=
  if b.depth > 0 then
    (RunResult.null, { b with depth := b.depth - 1 - 1 })
  else
    (RunResult.submit memo, b)

/-- Errors thrown by `Bundle` methods that are forbidden mid-bundle
(`ClientError.NotInBundle` in `client-events`). -/
inductive ClientError where
  | NotInBundle (op : String)
deriving DecidableEq, Repr

/-- `Bundle.query`: always throws `NotInBundle`. -/
def Bundle.query (b : Bundle) (contract : Option String) (msg : String) :
    Except ClientError String × Bundle :=
  (Except.error (ClientError.NotInBundle "query"), b)

/-- `Bundle.upload`: always throws `NotInBundle`. -/
def Bundle.upload (b : Bundle) (code : List Nat) :
    Except ClientError Unit × Bundle :=
  (Except.error (ClientError.NotInBundle "upload"), b)

/-- `Bundle.uploadMany`: always throws `NotInBundle`. -/
def Bundle.uploadMany (b : Bundle) (code : List (List Nat)) :
    Except ClientError Unit × Bundle :=
  (Except.error (ClientError.NotInBundle "upload"), b)

/-- `Bundle.getBalance`: always throws `NotInBundle`. -/
def Bundle.getBalance (b : Bundle) (denom : String) :
    Except ClientError String × Bundle :=
  (Except.error (ClientError.NotInBundle "query balance"), b)

/-- `Bundle.send`: always throws `NotInBundle`. -/
def Bundle.send (b : Bundle) (recipient : String) (amounts : List String) :
    Except ClientError Unit × Bundle :=
  (Except.error (ClientError.NotInBundle "send"), b)

/-- `Bundle.sendMany`: always throws `NotInBundle`. -/
def Bundle.sendMany (b : Bundle) (outputs : List (String × List String)) :
    Except ClientError Unit × Bundle :=
  (Except.error (ClientError.NotInBundle "send"), b)

/-- `Bundle.height` getter: always throws `NotInBundle`. -/
def Bundle.height (b : Bundle) : Except ClientError Nat × Bundle :=
  (Except.error (ClientError.NotInBundle "query block height inside bundle"), b)

/-- `Bundle.nextBlock` getter: always throws `NotInBundle`. -/
def Bundle.nextBlock (b : Bundle) : Except ClientError Nat × Bundle :=
  (Except.error (ClientError.NotInBundle "wait for next block"), b)

/-- `Bundle.getCodeId`: permitted, delegates to the wrapped agent. -/
def Bundle.getCodeId (b : Bundle) (address : String) :
    Except ClientError String × Bundle :=
  (Except.ok (b.agent.getCodeId address), b)

/-- `Bundle.getLabel`: permitted, delegates to the wrapped agent. -/
def Bundle.getLabel (b : Bundle) (address : String) :
    Except ClientError String × Bundle :=
  (Except.ok (b.agent.getLabel address), b)

/-- `Bundle.getHash`: permitted, delegates to the wrapped agent. -/
def Bundle.getHash (b : Bundle) (address : String) :
    Except ClientError String × Bundle :=
  (Except.ok (b.agent.getHash address), b)

/-- `Bundle.checkHash`: permitted, delegates to the wrapped agent. -/
def Bundle.checkHash (b : Bundle) (address : String) (expected : Option String) :
    Except ClientError String × Bundle :=
  (Except.ok (b.agent.checkHash address expected), b)

/-- Fields of the template passed to `Bundle.instantiate`
(`codeId` and `codeHash` may be undefined). -/
structure TemplateRef where
  codeId : Option String
  codeHash : Option String
deriving DecidableEq, Repr

/-- JS `String(x)` on a possibly-undefined string. -/
def jsString : Option String → String
  | some s => s
  | none => "undefined"

/-- The provisional contract instance synthesized by `Bundle.instantiate`:
it carries the template's code id and code hash, the label and init
message, and no address. -/
structure ProvisionalInstance where
  codeId : String
  codeHash : Option String
  label : String
  initMsg : String
  address : Option String
deriving DecidableEq, Repr

/-- `Bundle.instantiate(template, label, initMsg, funds = [])`: appends one
`init` record via `add` and returns a provisional instance with no
address. -/
def Bundle.instantiate (b : Bundle) (template : TemplateRef)
    (label : String) (initMsg : String) : ProvisionalInstance × Bundle :=
  let codeId := jsString template.codeId
  let codeHash := template.codeHash
  let sender := b.agent.address
  let b' := (b.add (BundleMsg.init sender codeId codeHash label initMsg [])).2
  ({ codeId := codeId, codeHash := codeHash, label := label,
     initMsg := initMsg, address := none }, b')

/-- The `{ address, codeHash }` fields destructured from the client passed
to `Bundle.execute`. -/
structure ClientRef where
  address : Option String
  codeHash : Option String
deriving DecidableEq, Repr

/-- `Bundle.execute({address, codeHash}, msg, {send})`: appends one `exec`
record via `add` and returns the bundle itself. -/
def Bundle.execute (b : Bundle) (contract : ClientRef) (msg : String)
    (send : Option (List String)) : Bundle :=
  (b.add (BundleMsg.exec b.agent.address contract.address contract.codeHash
    msg send)).2

/-- An agent whose read responses are all empty; used to build concrete
bundles in closed statements. -/
def trivialAgent : AgentResponses :=
  { address := none,
    getCodeId := fun _ => "",
    getLabel := fun _ => "",
    getHash := fun _ => "",
    checkHash := fun _ _ => "" }

/-! ## Theorems about the Bundle -/

/-- C1: the claim says each `run()` made while `depth > 0` decrements
`depth` by exactly one, so after N nested `bundle()` calls exactly N
`run()` calls return null and the (N+1)-th submits.  The source instead
decrements `depth` twice per `run()` (`--this.depth` inside the log call
and `this.depth--` on the next line).  Evaluated at N = 2: after two
nested `bundle()` calls the first `run()` returns null and leaves
`depth = 0`, so the second `run()` already calls `submit` — the claim
would require it to return null and only the third to submit. -/
theorem bundle_run_double_decrement :
    ((mkBundle trivialAgent).bundle.bundle.run "").1 = RunResult.null
    ∧ ((mkBundle trivialAgent).bundle.bundle.run "").2.depth = 0
    ∧ ((((mkBundle trivialAgent).bundle.bundle.run "").2.run "").1
        = RunResult.submit "") := by
  refine ⟨?_, ?_, ?_⟩ <;> decide

/-- C4: inside a bundle, `query`, `upload`, `uploadMany`, `getBalance`,
`send`, `sendMany`, `height` and `nextBlock` all fail with a `NotInBundle`
error and leave the bundle state (in particular the message log)
unchanged, while `getCodeId`, `getLabel`, `getHash` and `checkHash`
succeed by delegating to the wrapped agent. -/
theorem bundle_forbidden_and_permitted_ops (b : Bundle)
    (contract : Option String) (msg denom recipient addr : String)
    (amounts : List String) (outputs : List (String × List String))
    (code : List Nat) (codes : List (List Nat)) (expected : Option String) :
    b.query contract msg = (Except.error (ClientError.NotInBundle "query"), b)
    ∧ b.upload code = (Except.error (ClientError.NotInBundle "upload"), b)
    ∧ b.uploadMany codes = (Except.error (ClientError.NotInBundle "upload"), b)
    ∧ b.getBalance denom
        = (Except.error (ClientError.NotInBundle "query balance"), b)
    ∧ b.send recipient amounts
        = (Except.error (ClientError.NotInBundle "send"), b)
    ∧ b.sendMany outputs = (Except.error (ClientError.NotInBundle "send"), b)
    ∧ b.height = (Except.error
        (ClientError.NotInBundle "query block height inside bundle"), b)
    ∧ b.nextBlock
        = (Except.error (ClientError.NotInBundle "wait for next block"), b)
    ∧ b.getCodeId addr = (Except.ok (b.agent.getCodeId addr), b)
    ∧ b.getLabel addr = (Except.ok (b.agent.getLabel addr), b)
    ∧ b.getHash addr = (Except.ok (b.agent.getHash addr), b)
    ∧ b.checkHash addr expected
        = (Except.ok (b.agent.checkHash addr expected), b) :=
  ⟨rfl, rfl, rfl, rfl, rfl, rfl, rfl, rfl, rfl, rfl, rfl, rfl⟩

/-- C5: `instantiate` and `execute` each append exactly one typed message
record (`init` / `exec`) to the message log at the next sequential id,
leaving all other log entries untouched, so the order of records equals
the order of calls; `instantiate` additionally returns a provisional
instance carrying the template's code id and code hash with no address. -/
theorem bundle_append_and_provisional (b : Bundle) (t : TemplateRef)
    (label msg : String) (c : ClientRef) (msg2 : String)
    (send : Option (List String)) :
    ((b.instantiate t label msg).2.id = b.id + 1)
    ∧ ((b.instantiate t label msg).2.msgs b.id
        = some (BundleMsg.init b.agent.address (jsString t.codeId) t.codeHash
            label msg []))
    ∧ (∀ k, k ≠ b.id → (b.instantiate t label msg).2.msgs k = b.msgs k)
    ∧ ((b.instantiate t label msg).1
        = { codeId := jsString t.codeId, codeHash := t.codeHash,
            label := label, initMsg := msg, address := none })
    ∧ ((b.execute c msg2 send).id = b.id + 1)
    ∧ ((b.execute c msg2 send).msgs b.id
        = some (BundleMsg.exec b.agent.address c.address c.codeHash msg2 send))
    ∧ (∀ k, k ≠ b.id → (b.execute c msg2 send).msgs k = b.msgs k)
    ∧ (((b.instantiate t label msg).2.execute c msg2 send).msgs b.id
        = some (BundleMsg.init b.agent.address (jsString t.codeId) t.codeHash
            label msg []))
    ∧ (((b.instantiate t label msg).2.execute c msg2 send).msgs (b.id + 1)
        = some (BundleMsg.exec b.agent.address c.address c.codeHash msg2
            send)) := by
  refine ⟨rfl, ?_, ?_, rfl, rfl, ?_, ?_, ?_, ?_⟩
  · simp [Bundle.instantiate, Bundle.add]
  · intro k hk
    simp [Bundle.instantiate, Bundle.add, hk]
  · simp [Bundle.execute, Bundle.add]
  · intro k hk
    simp [Bundle.execute, Bundle.add, hk]
  · simp [Bundle.instantiate, Bundle.execute, Bundle.add]
  · simp [Bundle.instantiate, Bundle.execute, Bundle.add]

/-- Witness for the bundle append/order theorem at a concrete bundle,
template, client and messages. -/
theorem bundle_append_and_provisional_witness :
    ((mkBundle trivialAgent).instantiate ⟨some "1", some "h"⟩ "lbl" "init").2.msgs 0
      = some (BundleMsg.init none "1" (some "h") "lbl" "init" [])
    ∧ ((mkBundle trivialAgent).instantiate ⟨some "1", some "h"⟩ "lbl" "init").2.msgs 7
      = none := by
  have h := bundle_append_and_provisional (mkBundle trivialAgent)
    ⟨some "1", some "h"⟩ "lbl" "init" ⟨some "addr", some "h"⟩ "exec" none
  exact ⟨h.2.1, h.2.2.1 7 (by decide)⟩

/-! ## Contract lifecycle (core-contract: `ContractTemplate` / `Contract`)

The source exposes each lifecycle stage as a getter (`compiled`,
`uploaded`, `deployed`).  `uploaded` and `deployed` redefine themselves
(`Object.defineProperty`) to return the task created on first read, so
repeated readers receive the same task object.  Task object identity is
modelled by a numeric id drawn from a fresh-id counter. -/

/-- JS truthiness of a possibly-undefined string: `undefined` and the
empty string are falsy. -/
def truthy : Option String → Bool
  | none => false
  | some s => s != ""

/-- Result of reading a stage getter: either the property resolves
immediately with the already-present value (no task created, no work
started), or it yields a task object identified by its id. -/
inductive TaskRead where
  | immediate
  | task (id : Nat)
deriving DecidableEq, Repr

/-- The fields of a `ContractTemplate` / `Contract` relevant to the stage
getters, plus the task slots written by the self-redefining `uploaded` and
`deployed` getters and a fresh-id counter for newly created tasks. -/
structure ContractState where
  artifact : Option String
  codeId : Option String
  address : Option String
  uploadedCache : Option Nat
  deployedCache : Option Nat
  nextTask : Nat
deriving DecidableEq, Repr

/-- `get compiled()`: if `artifact` is set, resolve immediately with
`this`; otherwise start a (new, unmemoized) build task. -/
def ContractState.compiled (s : ContractState) : TaskRead × ContractState :=
  if truthy s.artifact then (TaskRead.immediate, s)
  else (TaskRead.task s.nextTask, { s with nextTask := s.nextTask + 1 })

/-- `get uploaded()`: once the getter has been redefined it returns the
stored task unconditionally; otherwise, if `codeId` is set, resolve
immediately with `this`; otherwise create the upload task and redefine
the getter to return it. -/
def ContractState.uploaded (s : ContractState) : TaskRead × ContractState :=
  match s.uploadedCache with
  | some t => (TaskRead.task t, s)
  | none =>
    if truthy s.codeId then (TaskRead.immediate, s)
    else (TaskRead.task s.nextTask,
      { s with uploadedCache := some s.nextTask, nextTask := s.nextTask + 1 })

/-- `get deployed()`: same shape as `uploaded`, keyed on `address`; the
immediate case resolves with a client built from the present address. -/
def ContractState.deployed (s : ContractState) : TaskRead × ContractState :=
  match s.deployedCache with
  | some t => (TaskRead.task t, s)
  | none =>
    if truthy s.address then (TaskRead.immediate, s)
    else (TaskRead.task s.nextTask,
      { s with deployedCache := some s.nextTask, nextTask := s.nextTask + 1 })

/-- C2: reading `compiled` when `artifact` is set, `uploaded` when
`codeId` is set (and no upload task was started), or `deployed` when
`address` is set (and no deploy task was started) performs no work and
resolves immediately, leaving the state unchanged; and a second read of
`uploaded` or `deployed` always returns exactly the first read's result
without changing the state again, so at most one advance per stage is
ever in flight. -/
theorem contract_stage_caching (s : ContractState) :
    (truthy s.artifact = true → s.compiled = (TaskRead.immediate, s))
    ∧ (s.uploadedCache = none → truthy s.codeId = true →
        s.uploaded = (TaskRead.immediate, s))
    ∧ (s.deployedCache = none → truthy s.address = true →
        s.deployed = (TaskRead.immediate, s))
    ∧ (∀ t, s.uploadedCache = some t → s.uploaded = (TaskRead.task t, s))
    ∧ (∀ t, s.deployedCache = some t → s.deployed = (TaskRead.task t, s))
    ∧ ((s.uploaded).2.uploaded = ((s.uploaded).1, (s.uploaded).2))
    ∧ ((s.deployed).2.deployed = ((s.deployed).1, (s.deployed).2)) := by
  refine ⟨?_, ?_, ?_, ?_, ?_, ?_, ?_⟩
  · intro h; simp [ContractState.compiled, h]
  · intro hc h; simp [ContractState.uploaded, hc, h]
  · intro hc h; simp [ContractState.deployed, hc, h]
  · intro t ht; simp [ContractState.uploaded, ht]
  · intro t ht; simp [ContractState.deployed, ht]
  · rcases hc : s.uploadedCache with _ | t
    · by_cases h : truthy s.codeId
      · simp [ContractState.uploaded, hc, h]
      · simp [ContractState.uploaded, hc, h]
    · simp [ContractState.uploaded, hc]
  · rcases hc : s.deployedCache with _ | t
    · by_cases h : truthy s.address
      · simp [ContractState.deployed, hc, h]
      · simp [ContractState.deployed, hc, h]
    · simp [ContractState.deployed, hc]

/-- Witness for the stage-caching theorem at a concrete contract state
whose artifact, code id and address are all present. -/
theorem contract_stage_caching_witness :
    (⟨some "a.wasm", some "1", some "addr", none, none, 0⟩ :
        ContractState).compiled
      = (TaskRead.immediate, ⟨some "a.wasm", some "1", some "addr", none, none, 0⟩)
    ∧ (⟨some "a.wasm", some "1", some "addr", none, none, 0⟩ :
        ContractState).uploaded
      = (TaskRead.immediate, ⟨some "a.wasm", some "1", some "addr", none, none, 0⟩)
    ∧ (⟨some "a.wasm", some "1", some "addr", none, none, 0⟩ :
        ContractState).deployed
      = (TaskRead.immediate, ⟨some "a.wasm", some "1", some "addr", none, none, 0⟩) := by
  have h := contract_stage_caching
    ⟨some "a.wasm", some "1", some "addr", none, none, 0⟩
  exact ⟨h.1 (by decide), h.2.1 rfl (by decide), h.2.2.1 rfl (by decide)⟩

/-! ## Contract.deploy error surfacing (core-contract `deployContract`) -/

/-- Configuration errors thrown by the deploy/build stage advances
(`ClientError` subclasses in `core-events`). -/
inductive DeployError where
  | NoAgent
  | NoName
  | NoInitLabel
  | NoInitMessage
  | NoInitCodeId
  | NoCrate
deriving DecidableEq, Repr

/-- The fields of a `Contract` consulted by `deployContract` and
`buildContract`.  `pre` and `suffix` stand for the source's label
`prefix`/`suffix` fields; the agent is an opaque presence marker. -/
structure DeployContract where
  agent : Option Unit
  id : Option String
  pre : Option String
  suffix : Option String
  label : Option String
  initMsg : Option String
  codeId : Option String
  crate : Option String
deriving DecidableEq, Repr

/-- Modelled from the spec: `writeLabel` lives in `core-labels`, which is
not among the sources; per the spec's label invariant,
`label = (prefix+"/")? + name + ("+"+suffix)?`, where the contract's
proper name is its `id` field. -/
def writeLabel (c : DeployContract) : String :=
  (match c.pre with | some p => p ++ "/" | none => "")
  ++ (match c.id with | some n => n | none => "")
  ++ (match c.suffix with | some s => "+" ++ s | none => "")

/-- `deployContract` (the body of `Contract.deploy`): guards in source
order — missing agent, missing name, uncomposable label, missing init
message — then awaits the upload stage (abstracted as a state transformer
`up`) and finally requires `codeId`.  On success the instantiate backend
would run; the claim concerns only the guards, so success returns the
advanced contract. -/
def DeployContract.deploy (c : DeployContract)
    (up : DeployContract → DeployContract) :
    Except DeployError DeployContract :=
  if c.agent.isNone then Except.error DeployError.NoAgent
  else if !(truthy c.id) then Except.error DeployError.NoName
  else
    let c1 := { c with label := some (writeLabel c) }
    if !(truthy c1.label) then Except.error DeployError.NoInitLabel
    else if !(truthy c1.initMsg) then Except.error DeployError.NoInitMessage
    else
      let c2 := up c1
      if !(truthy c2.codeId) then Except.error DeployError.NoInitCodeId
      else Except.ok c2

/-- `buildContract` (the body of `ContractTemplate.build`): requires
`crate` before invoking the builder (abstracted as `bld`). -/
def DeployContract.build (c : DeployContract)
    (bld : DeployContract → DeployContract) :
    Except DeployError DeployContract :=
  if !(truthy c.crate) then Except.error DeployError.NoCrate
  else Except.ok (bld c)

/-- C3: `deploy()` fails with `NoAgent` when the agent is unset, `NoName`
when the contract's name (`id`) is unset, `NoInitMessage` when `initMsg`
is unset, and `NoInitCodeId` when `codeId` is still unset after the
upload stage completes — each error surfacing at the deploy-time advance
that requires the missing field; `NoInitLabel` can only surface when the
composed label is empty; and `build()` fails with `NoCrate` when `crate`
is unset. -/
theorem deploy_error_surfacing (c : DeployContract)
    (up bld : DeployContract → DeployContract) :
    (c.agent = none → c.deploy up = Except.error DeployError.NoAgent)
    ∧ (c.agent.isSome → truthy c.id = false →
        c.deploy up = Except.error DeployError.NoName)
    ∧ (c.agent.isSome → truthy c.id = true →
        truthy (some (writeLabel c)) = true → truthy c.initMsg = false →
        c.deploy up = Except.error DeployError.NoInitMessage)
    ∧ (c.agent.isSome → truthy c.id = true →
        truthy (some (writeLabel c)) = true → truthy c.initMsg = true →
        truthy (up { c with label := some (writeLabel c) }).codeId = false →
        c.deploy up = Except.error DeployError.NoInitCodeId)
    ∧ (c.deploy up = Except.error DeployError.NoInitLabel → writeLabel c = "")
    ∧ (truthy c.crate = false →
        c.build bld = Except.error DeployError.NoCrate) := by
  refine ⟨?_, ?_, ?_, ?_, ?_, ?_⟩
  · intro h; simp [DeployContract.deploy, h]
  · intro ha h
    obtain ⟨u, hc⟩ := Option.isSome_iff_exists.mp ha
    simp [DeployContract.deploy, hc, h]
  · intro ha hid hlb h
    obtain ⟨u, hc⟩ := Option.isSome_iff_exists.mp ha
    simp [DeployContract.deploy, hc, hid, hlb, h]
  · intro ha hid hlb hmsg h
    obtain ⟨u, hc⟩ := Option.isSome_iff_exists.mp ha
    rw [hc] at h
    simp [DeployContract.deploy, hc, hid, hlb, hmsg, h]
  · intro h
    by_cases hlb : truthy (some (writeLabel c))
    · exfalso
      simp only [DeployContract.deploy] at h
      split at h
      · simp at h
      · split at h
        · simp at h
        · split at h
          · rename_i hcond
            rw [hlb] at hcond
            simp at hcond
          · split at h
            · simp at h
            · split at h
              · simp at h
              · simp at h
    · simp only [truthy, bne_iff_ne, ne_eq, Decidable.not_not] at hlb
      exact hlb
  · intro h; simp [DeployContract.build, h]

/-- Witness for the deploy error-surfacing theorem: each error is
produced at a concrete contract missing exactly the corresponding
field (the upload stage is the identity, so `codeId` stays unset). -/
theorem deploy_error_surfacing_witness :
    (⟨none, some "x", none, none, none, some "m", none, none⟩ :
        DeployContract).deploy (fun c => c)
      = Except.error DeployError.NoAgent
    ∧ (⟨some (), none, none, none, none, some "m", none, none⟩ :
        DeployContract).deploy (fun c => c)
      = Except.error DeployError.NoName
    ∧ (⟨some (), some "x", none, none, none, none, none, none⟩ :
        DeployContract).deploy (fun c => c)
      = Except.error DeployError.NoInitMessage
    ∧ (⟨some (), some "x", none, none, none, some "m", none, none⟩ :
        DeployContract).deploy (fun c => c)
      = Except.error DeployError.NoInitCodeId
    ∧ (⟨some (), some "x", none, none, none, some "m", none, none⟩ :
        DeployContract).build (fun c => c)
      = Except.error DeployError.NoCrate := by
  refine ⟨?_, ?_, ?_, ?_, ?_⟩
  · exact (deploy_error_surfacing _ (fun c => c) (fun c => c)).1 rfl
  · exact (deploy_error_surfacing _ (fun c => c) (fun c => c)).2.1
      (by decide) (by decide)
  · exact (deploy_error_surfacing _ (fun c => c) (fun c => c)).2.2.1
      (by decide) (by decide) (by decide) (by decide)
  · exact (deploy_error_surfacing _ (fun c => c) (fun c => c)).2.2.2.1
      (by decide) (by decide) (by decide) (by decide) (by decide)
  · exact (deploy_error_surfacing _ (fun c => c) (fun c => c)).2.2.2.2.2
      (by decide)

/-! ## Contract.matches (core-contract) -/

/-- `Contract.matches(predicate)`: iterates the predicate's keys and
returns `true` on the first key whose value differs from the contract's
(`return true` in the source, not `return false`), and `true` after the
loop.  The contract is abstracted as a key-to-value map and the predicate
as its key/value entries. -/
def matchesContract (this : String → Option String)
    (predicate : List (String × Option String)) : Bool :=
  match predicate with
  | [] => true
  | (k, v) :: rest => if this k ≠ v then true else matchesContract this rest

/-- C9: `matches` returns `true` for the empty predicate and returns
`true` as soon as the first differing key is encountered; consequently it
returns `true` for every contract and every predicate. -/
theorem matches_always_true (this : String → Option String)
    (k : String) (v : Option String)
    (rest predicate : List (String × Option String)) :
    matchesContract this [] = true
    ∧ (this k ≠ v → matchesContract this ((k, v) :: rest) = true)
    ∧ matchesContract this predicate = true := by
  refine ⟨rfl, ?_, ?_⟩
  · intro h; simp [matchesContract, h]
  · induction predicate with
    | nil => rfl
    | cons p rest ih =>
      rcases p with ⟨k', v'⟩
      by_cases h : this k' = v'
      · simpa [matchesContract, h] using ih
      · simp [matchesContract, h]

/-- Witness for the `matches` theorem at a concrete contract and a
predicate whose single key differs from the contract's value. -/
theorem matches_always_true_witness :
    matchesContract (fun _ => some "a") [("address", some "b")] = true := by
  exact (matches_always_true (fun _ => some "a") "address" (some "b") [] []).2.1
    (by decide)

/-! ## Chain constructor (packages/client: `Chain`) -/

/-- The four chain modes. -/
inductive ChainMode where
  | Mainnet
  | Testnet
  | Devnet
  | Mocknet
deriving DecidableEq, Repr

/-- The devnet handle passed as the `node` option (its `url` is already
stringified). -/
structure DevnetHandle where
  chainId : String
  url : String
deriving DecidableEq, Repr

/-- Warnings the constructor can log. -/
inductive ChainWarning where
  | urlOverride
  | idOverride
  | nodeNonDevnet
deriving DecidableEq, Repr

/-- The state of a constructed `Chain`. -/
structure ChainSt where
  id : String
  url : String
  mode : ChainMode
  node : Option DevnetHandle
  warnings : List ChainWarning
deriving DecidableEq, Repr

/-- Error thrown when the chain id is missing. -/
inductive ChainCtorError where
  | NoChainId
deriving DecidableEq, Repr

/-- Value of `this.url` after the constructor's
`if (options.url) this.url = options.url` (class default `''`). -/
def urlDefault (urlOpt : Option String) : String :=
  match urlOpt with | some u => u | none => ""

/-- The `Chain` constructor: rejects a falsy id; takes `url` from the
options when given (default `''`); then, if a `node` option is present:
on Devnet mode stores the node and runs the two sequential override
checks, letting the node's `url` and `chainId` replace differing
provided values (each with a warning); on any other mode it ignores the
node with a warning. -/
def chainConstruct (id : String) (urlOpt : Option String) (mode : ChainMode)
    (nodeOpt : Option DevnetHandle) : Except ChainCtorError ChainSt :=
  if id = "" then Except.error ChainCtorError.NoChainId
  else
    let url0 := urlDefault urlOpt
    match nodeOpt with
    | none => Except.ok ⟨id, url0, mode, none, []⟩
    | some n =>
      if mode = ChainMode.Devnet then
        let url1 := if url0 ≠ n.url then n.url else url0
        let w1 : List ChainWarning :=
          if url0 ≠ n.url then [ChainWarning.urlOverride] else []
        let id1 := if id ≠ n.chainId then n.chainId else id
        let w2 : List ChainWarning :=
          if id ≠ n.chainId then [ChainWarning.idOverride] else []
        Except.ok ⟨id1, url1, mode, some n, w1 ++ w2⟩
      else Except.ok ⟨id, url0, mode, none, [ChainWarning.nodeNonDevnet]⟩

/-- `get isDevnet()`. -/
def ChainSt.isDevnet (c : ChainSt) : Bool :=
  match c.mode with | ChainMode.Devnet => true | _ => false

/-- `get isMocknet()`. -/
def ChainSt.isMocknet (c : ChainSt) : Bool :=
  match c.mode with | ChainMode.Mocknet => true | _ => false

/-- `get devMode()`: whether this is a devnet or mocknet. -/
def ChainSt.devMode (c : ChainSt) : Bool :=
  c.isDevnet || c.isMocknet

/-- C6: constructing a chain with a `node` option and a non-Devnet mode
leaves the node unset and logs a warning; in Devnet mode the node's url
and chainId always end up as the chain's url and id, with a warning
logged for each value that differed from the provided one; and `devMode`
is true exactly when the mode is Devnet or Mocknet. -/
theorem chain_node_and_devmode (id : String) (urlOpt : Option String)
    (mode : ChainMode) (n : DevnetHandle) (hid : id ≠ "") :
    (mode ≠ ChainMode.Devnet →
      chainConstruct id urlOpt mode (some n)
        = Except.ok ⟨id, urlDefault urlOpt, mode, none,
            [ChainWarning.nodeNonDevnet]⟩)
    ∧ (mode = ChainMode.Devnet →
      ∀ c, chainConstruct id urlOpt mode (some n) = Except.ok c →
        c.url = n.url ∧ c.id = n.chainId ∧ c.node = some n
        ∧ (urlDefault urlOpt ≠ n.url → ChainWarning.urlOverride ∈ c.warnings)
        ∧ (id ≠ n.chainId → ChainWarning.idOverride ∈ c.warnings))
    ∧ (∀ c : ChainSt, c.devMode = true ↔
        (c.mode = ChainMode.Devnet ∨ c.mode = ChainMode.Mocknet)) := by
  refine ⟨?_, ?_, ?_⟩
  · intro hm
    simp [chainConstruct, hid, hm]
  · intro hm c hc
    subst hm
    simp only [chainConstruct, if_neg hid, if_pos rfl, if_true, ite_true] at hc
    rw [Except.ok.injEq] at hc
    subst hc
    refine ⟨?_, ?_, rfl, ?_, ?_⟩
    · by_cases hu : urlDefault urlOpt ≠ n.url
      · simp [hu]
      · rw [not_not] at hu
        simp [hu]
    · by_cases hc : id ≠ n.chainId
      · simp [hc]
      · rw [not_not] at hc
        simp [hc]
    · intro hu
      by_cases hc : id ≠ n.chainId <;> simp [hu, hc]
    · intro hc
      by_cases hu : urlDefault urlOpt ≠ n.url <;> simp [hu, hc]
  · intro c
    cases c with
    | mk i u m nd w =>
      cases m <;> simp [ChainSt.devMode, ChainSt.isDevnet, ChainSt.isMocknet]

/-- Witness for the chain constructor theorem, mirroring the devnet test
vector from the platform spec (`node = { chainId: 'scrt-devnet', url:
'http://test:0' }`): a Mainnet chain ignores the node with a warning, and
a Devnet chain adopts the node's url and chain id. -/
theorem chain_node_and_devmode_witness :
    chainConstruct "dev" (some "http://a") ChainMode.Mainnet
        (some ⟨"scrt-devnet", "http://test:0"⟩)
      = Except.ok ⟨"dev", "http://a", ChainMode.Mainnet, none,
          [ChainWarning.nodeNonDevnet]⟩
    ∧ (∀ c, chainConstruct "dev" (some "http://a") ChainMode.Devnet
        (some ⟨"scrt-devnet", "http://test:0"⟩) = Except.ok c →
          c.url = "http://test:0" ∧ c.id = "scrt-devnet")
    ∧ (ChainSt.devMode ⟨"dev", "", ChainMode.Mocknet, none, []⟩ = true) := by
  refine ⟨?_, ?_, ?_⟩
  · exact (chain_node_and_devmode "dev" (some "http://a") ChainMode.Mainnet
      ⟨"scrt-devnet", "http://test:0"⟩ (by decide)).1 (by decide)
  · intro c hc
    have h := ((chain_node_and_devmode "dev" (some "http://a") ChainMode.Devnet
      ⟨"scrt-devnet", "http://test:0"⟩ (by decide)).2.1 rfl c hc)
    exact ⟨h.1, h.2.1⟩
  · exact ((chain_node_and_devmode "dev" none ChainMode.Mainnet
      ⟨"x", "y"⟩ (by decide)).2.2
        ⟨"dev", "", ChainMode.Mocknet, none, []⟩).mpr (Or.inr rfl)

/-! ## Devnet.load (ops/devnet: `Devnet.load`) -/

/-- The contents of `devnet.json` (`DevnetState` in the source). -/
structure DevnetStateData where
  chainId : String
  port : Nat
  containerId : Option String
deriving DecidableEq, Repr

/-- What the filesystem holds when `load()` runs: the state directory or
`devnet.json` is missing; the file exists and parses to `data`; or the
file exists but loading it throws. -/
inductive NodeStateFile where
  | missing
  | loads (data : DevnetStateData)
  | corrupt
deriving DecidableEq, Repr

/-- The devnet fields `load()` touches. -/
structure Devnet where
  chainId : String
  port : Nat
deriving DecidableEq, Repr

/-- Everything observable about one `load()` call: the returned value
(`Except.error ()` models the rethrown load exception), the devnet
afterwards, whether the state directory was deleted, and whether the
chain-id-mismatch warning was logged. -/
structure LoadOutcome where
  result : Except Unit (Option DevnetStateData)
  devnet : Devnet
  stateDeleted : Bool
  warnedChainIdMismatch : Bool
deriving Repr

/-- `Devnet.load()`: returns null when the state directory or
`devnet.json` is missing; otherwise tries to load the file — on success
it warns if the stored chainId differs from the configured one, restores
the stored port onto the devnet and returns the data; on failure it
deletes the state directory and rethrows. -/
def Devnet.load (d : Devnet) (file : NodeStateFile) : LoadOutcome :=
  match file with
  | NodeStateFile.missing =>
    { result := Except.ok none, devnet := d,
      stateDeleted := false, warnedChainIdMismatch := false }
  | NodeStateFile.loads data =>
    { result := Except.ok (some data),
      devnet := { d with port := data.port },
      stateDeleted := false,
      warnedChainIdMismatch := d.chainId != data.chainId }
  | NodeStateFile.corrupt =>
    { result := Except.error (), devnet := d,
      stateDeleted := true, warnedChainIdMismatch := false }

/-- C8: `load()` returns null and modifies nothing when the state
directory or `devnet.json` is missing; when the file parses it restores
the stored port, returns the stored data and treats a differing stored
chainId as a warning only (never an error, never a deletion); when the
file fails to load, the state directory is deleted and the error is
rethrown. -/
theorem devnet_load_spec (d : Devnet) (data : DevnetStateData) :
    d.load NodeStateFile.missing
      = { result := Except.ok none, devnet := d,
          stateDeleted := false, warnedChainIdMismatch := false }
    ∧ (d.load (NodeStateFile.loads data)).result = Except.ok (some data)
    ∧ (d.load (NodeStateFile.loads data)).devnet.port = data.port
    ∧ (d.load (NodeStateFile.loads data)).devnet.chainId = d.chainId
    ∧ (d.load (NodeStateFile.loads data)).stateDeleted = false
    ∧ (d.chainId ≠ data.chainId →
        (d.load (NodeStateFile.loads data)).warnedChainIdMismatch = true)
    ∧ (d.load NodeStateFile.corrupt).result = Except.error ()
    ∧ (d.load NodeStateFile.corrupt).stateDeleted = true := by
  refine ⟨rfl, rfl, rfl, rfl, rfl, ?_, rfl, rfl⟩
  intro h
  simp [Devnet.load, h]

/-- Witness for the devnet load theorem at a concrete devnet and a stored
state whose chainId differs. -/
theorem devnet_load_spec_witness :
    ((⟨"fadroma-devnet", 9091⟩ : Devnet).load
        (NodeStateFile.loads ⟨"other-chain", 1317, none⟩)).warnedChainIdMismatch
      = true
    ∧ ((⟨"fadroma-devnet", 9091⟩ : Devnet).load
        (NodeStateFile.loads ⟨"other-chain", 1317, none⟩)).devnet.port
      = 1317 := by
  have h := devnet_load_spec ⟨"fadroma-devnet", 9091⟩ ⟨"other-chain", 1317, none⟩
  exact ⟨h.2.2.2.2.2.1 (by decide), h.2.2.1⟩

/-! ## Client.getFee (packages/client: `Client.getFee`) -/

/-- A gas fee; the inner structure is irrelevant to `getFee`, only
identity matters. -/
structure FeeV where
  gas : Nat
deriving DecidableEq, Repr

/-- A `getFee` argument: a string message or an object message,
represented by the list of its root keys. -/
inductive FeeMsg where
  | str (s : String)
  | obj (keys : List String)
deriving DecidableEq, Repr

/-- The fee configuration `getFee` consults: the client's default `fee`,
its per-message `fees` map, and the agent's `fees?.exec`. -/
structure FeeClient where
  fee : Option FeeV
  fees : List (String × FeeV)
  agentExecFee : Option FeeV
deriving DecidableEq, Repr

/-- JS `a || b` on possibly-undefined fees (fee objects are truthy). -/
def jsOr : Option FeeV → Option FeeV → Option FeeV
  | some v, _ => some v
  | none, d => d

/-- Lookup in the `fees` record. -/
def lookupFee : List (String × FeeV) → String → Option FeeV
  | [], _ => none
  | (k', v) :: rest, k => if k' = k then some v else lookupFee rest k

/-- The error thrown by `getFee` on an object message without exactly one
root key. -/
inductive GetFeeError where
  | MessagesMustHaveOneRootKey
deriving DecidableEq, Repr

/-- `Client.getFee(msg?)`: computes `defaultFee = this.fee ||
agent.fees?.exec`; for a string message returns `fees[msg] ||
defaultFee`; for an object message throws unless it has exactly one root
key, then returns `fees[key] || defaultFee`; with no message returns
`this.fee || defaultFee`. -/
def FeeClient.getFee (c : FeeClient) (msg : Option FeeMsg) :
    Except GetFeeError (Option FeeV) :=
  let defaultFee := jsOr c.fee c.agentExecFee
  match msg with
  | some (FeeMsg.str s) => Except.ok (jsOr (lookupFee c.fees s) defaultFee)
  | some (FeeMsg.obj keys) =>
    match keys with
    | [k] => Except.ok (jsOr (lookupFee c.fees k) defaultFee)
    | _ => Except.error GetFeeError.MessagesMustHaveOneRootKey
  | none => Except.ok (jsOr c.fee defaultFee)

/-- C10: `getFee` throws exactly when the message is an object whose
number of root keys differs from one; a string or single-key-object
message yields the fee registered under that key when present, otherwise
the client's default fee, or failing that the agent's exec fee; no
message yields the client's default fee or the agent's exec fee. -/
theorem getFee_spec (c : FeeClient) (s k : String) (keys : List String)
    (f : FeeV) :
    ((∃ e, c.getFee (some (FeeMsg.obj keys)) = Except.error e) ↔
      keys.length ≠ 1)
    ∧ (∀ m : Option FeeMsg, (∃ e, c.getFee m = Except.error e) →
        ∃ ks, m = some (FeeMsg.obj ks) ∧ ks.length ≠ 1)
    ∧ (lookupFee c.fees s = some f →
        c.getFee (some (FeeMsg.str s)) = Except.ok (some f))
    ∧ (lookupFee c.fees s = none →
        c.getFee (some (FeeMsg.str s))
          = Except.ok (jsOr c.fee c.agentExecFee))
    ∧ (lookupFee c.fees k = some f →
        c.getFee (some (FeeMsg.obj [k])) = Except.ok (some f))
    ∧ (lookupFee c.fees k = none →
        c.getFee (some (FeeMsg.obj [k]))
          = Except.ok (jsOr c.fee c.agentExecFee))
    ∧ (c.getFee none = Except.ok (jsOr c.fee c.agentExecFee)) := by
  refine ⟨?_, ?_, ?_, ?_, ?_, ?_, ?_⟩
  · constructor
    · rintro ⟨e, he⟩
      rcases keys with _ | ⟨k1, _ | ⟨k2, rest⟩⟩
      · decide
      · simp [FeeClient.getFee] at he
      · simp only [List.length_cons]
        omega
    · intro h
      rcases keys with _ | ⟨k1, _ | ⟨k2, rest⟩⟩
      · exact ⟨GetFeeError.MessagesMustHaveOneRootKey, rfl⟩
      · simp at h
      · exact ⟨GetFeeError.MessagesMustHaveOneRootKey, rfl⟩
  · rintro (_ | m) ⟨e, he⟩
    · simp [FeeClient.getFee] at he
    · rcases m with s' | ks
      · simp [FeeClient.getFee] at he
      · refine ⟨ks, rfl, ?_⟩
        rcases ks with _ | ⟨k1, _ | ⟨k2, rest⟩⟩
        · decide
        · simp [FeeClient.getFee] at he
        · simp only [List.length_cons]
          omega
  · intro h; simp [FeeClient.getFee, h, jsOr]
  · intro h; simp [FeeClient.getFee, h, jsOr]
  · intro h; simp [FeeClient.getFee, h, jsOr]
  · intro h; simp [FeeClient.getFee, h, jsOr]
  · cases hf : c.fee <;> simp [FeeClient.getFee, jsOr, hf]

/-- Witness for the `getFee` theorem, mirroring the core-connect test
vector (`fees = { method: 100 }`; both `getFee('method')` and
`getFee({method: {...}})` return that fee; a two-key object throws). -/
theorem getFee_spec_witness :
    (⟨none, [("method", ⟨100⟩)], none⟩ : FeeClient).getFee
        (some (FeeMsg.str "method")) = Except.ok (some ⟨100⟩)
    ∧ (⟨none, [("method", ⟨100⟩)], none⟩ : FeeClient).getFee
        (some (FeeMsg.obj ["method"])) = Except.ok (some ⟨100⟩)
    ∧ (∃ e, (⟨none, [("method", ⟨100⟩)], none⟩ : FeeClient).getFee
        (some (FeeMsg.obj ["a", "b"])) = Except.error e) := by
  have h := getFee_spec (⟨none, [("method", ⟨100⟩)], none⟩ : FeeClient)
    "method" "method" ["a", "b"] ⟨100⟩
  exact ⟨h.2.2.1 (by decide), h.2.2.2.2.1 (by decide), h.1.mpr (by decide)⟩

/-! ## Mocknet base64 helpers (`utf8toB64` / `b64toUtf8`)

The implementation module `mocknet-data` is not among the sources (only
its tests are), so the helpers are modelled from the spec: standard
base64 with the RFC 4648 alphabet and `=` padding, over the UTF-8 byte
sequence of the string.  Strings on the UTF-8 side are represented by
their byte sequences (`List Nat`, each element < 256); base64 text is a
`List Char`. -/

/-- The base64 alphabet. -/
def b64alphabet : List Char :=
  "ABCDEFGHIJKLMNOPQRSTUVWXYZabcdefghijklmnopqrstuvwxyz0123456789+/".toList

/-- The alphabet character of a sextet value. -/
def sextetChar (s : Nat) : Char := b64alphabet.getD s 'A'

/-- Index of a character in a character list (`none` when absent). -/
def indexIn : List Char → Char → Option Nat
  | [], _ => none
  | a :: rest, c =>
    if a = c then some 0 else (indexIn rest c).map (· + 1)

/-- The sextet value of an alphabet character (`none` for characters
outside the alphabet, including `=`). -/
def charSextet (c : Char) : Option Nat := indexIn b64alphabet c

/-- Modelled from the spec: `utf8toB64` encodes the UTF-8 bytes of a
string as base64 — three bytes become four sextet characters, a final
pair of bytes becomes three characters plus `=`, a final single byte
becomes two characters plus `==`. -/
def utf8toB64 : List Nat → List Char
  | a :: b :: c :: rest =>
    sextetChar (a / 4) :: sextetChar (a % 4 * 16 + b / 16) ::
      sextetChar (b % 16 * 4 + c / 64) :: sextetChar (c % 64) ::
        utf8toB64 rest
  | [a, b] =>
    [sextetChar (a / 4), sextetChar (a % 4 * 16 + b / 16),
     sextetChar (b % 16 * 4), '=']
  | [a] => [sextetChar (a / 4), sextetChar (a % 4 * 16), '=', '=']
  | [] => []

/-- Modelled from the spec: `b64toUtf8` decodes a base64 string to the
UTF-8 bytes it denotes, accepting exactly the canonical encodings
(four-character groups, `=` padding only at the end, zero padding
bits). -/
def b64toUtf8 : List Char → Option (List Nat)
  | [] => some []
  | c1 :: c2 :: c3 :: c4 :: rest =>
    match charSextet c1, charSextet c2 with
    | some s1, some s2 =>
      if c3 = '=' then
        if c4 = '=' ∧ rest = [] then
          if s2 % 16 = 0 then some [s1 * 4 + s2 / 16] else none
        else none
      else
        match charSextet c3 with
        | some s3 =>
          if c4 = '=' then
            if rest = [] then
              if s3 % 4 = 0 then
                some [s1 * 4 + s2 / 16, s2 % 16 * 16 + s3 / 4]
              else none
            else none
          else
            match charSextet c4, b64toUtf8 rest with
            | some s4, some tail =>
              some ((s1 * 4 + s2 / 16) :: (s2 % 16 * 16 + s3 / 4) ::
                (s3 % 4 * 64 + s4) :: tail)
            | _, _ => none
        | none => none
    | _, _ => none
  | _ => none

/-- Looking up the alphabet character of every sextet value gives back
that value. -/
theorem charSextet_sextetChar : ∀ s < 64, charSextet (sextetChar s) = some s := by
  decide

/-- No sextet character is the padding character. -/
theorem sextetChar_ne_pad : ∀ s < 64, sextetChar s ≠ '=' := by
  decide

/-- A successful index lookup is within bounds and points at the looked-up
character. -/
theorem indexIn_spec :
    ∀ (l : List Char) (c : Char) (s : Nat),
      indexIn l c = some s → s < l.length ∧ l.getD s 'A' = c := by
  intro l
  induction l with
  | nil => intro c s h; simp [indexIn] at h
  | cons a rest ih =>
    intro c s h
    simp only [indexIn] at h
    by_cases hac : a = c
    · rw [if_pos hac] at h
      injection h with h'
      subst h'
      exact ⟨Nat.succ_pos _, by simpa using hac⟩
    · rw [if_neg hac] at h
      cases hr : indexIn rest c with
      | none => rw [hr] at h; simp at h
      | some t =>
        rw [hr] at h
        simp only [Option.map_some'] at h
        injection h with h'
        subst h'
        obtain ⟨ht, hg⟩ := ih c t hr
        exact ⟨by simpa using Nat.succ_lt_succ ht, by simpa using hg⟩

/-- A successful `charSextet` lookup yields a sextet value below 64 whose
alphabet character is the looked-up character. -/
theorem sextetChar_charSextet {c : Char} {s : Nat}
    (h : charSextet c = some s) : s < 64 ∧ sextetChar s = c := by
  obtain ⟨hl, hg⟩ := indexIn_spec b64alphabet c s h
  refine ⟨?_, hg⟩
  simpa using hl

/-- Decoding an encoded byte sequence gives it back. -/
theorem b64_decode_encode :
    ∀ (bs : List Nat), (∀ x ∈ bs, x < 256) →
      b64toUtf8 (utf8toB64 bs) = some bs
  | [], _ => rfl
  | [a], h => by
    have ha : a < 256 := h a (by simp)
    have e1 : charSextet (sextetChar (a / 4)) = some (a / 4) :=
      charSextet_sextetChar _ (by omega)
    have e2 : charSextet (sextetChar (a % 4 * 16)) = some (a % 4 * 16) :=
      charSextet_sextetChar _ (by omega)
    have hp : a % 4 * 16 % 16 = 0 := by omega
    simp [utf8toB64, b64toUtf8, e1, e2, hp]
    omega
  | [a, b], h => by
    have ha : a < 256 := h a (by simp)
    have hb : b < 256 := h b (by simp)
    have e1 : charSextet (sextetChar (a / 4)) = some (a / 4) :=
      charSextet_sextetChar _ (by omega)
    have e2 : charSextet (sextetChar (a % 4 * 16 + b / 16))
        = some (a % 4 * 16 + b / 16) :=
      charSextet_sextetChar _ (by omega)
    have hne : sextetChar (b % 16 * 4) ≠ '=' :=
      sextetChar_ne_pad _ (by omega)
    have e3 : charSextet (sextetChar (b % 16 * 4)) = some (b % 16 * 4) :=
      charSextet_sextetChar _ (by omega)
    have hp : b % 16 * 4 % 4 = 0 := by omega
    simp [utf8toB64, b64toUtf8, e1, e2, e3, hne, hp]
    omega
  | [a, b, c], h => by
    have ha : a < 256 := h a (by simp)
    have hb : b < 256 := h b (by simp)
    have hc : c < 256 := h c (by simp)
    have e1 : charSextet (sextetChar (a / 4)) = some (a / 4) :=
      charSextet_sextetChar _ (by omega)
    have e2 : charSextet (sextetChar (a % 4 * 16 + b / 16))
        = some (a % 4 * 16 + b / 16) :=
      charSextet_sextetChar _ (by omega)
    have hne3 : sextetChar (b % 16 * 4 + c / 64) ≠ '=' :=
      sextetChar_ne_pad _ (by omega)
    have e3 : charSextet (sextetChar (b % 16 * 4 + c / 64))
        = some (b % 16 * 4 + c / 64) :=
      charSextet_sextetChar _ (by omega)
    have hne4 : sextetChar (c % 64) ≠ '=' := sextetChar_ne_pad _ (by omega)
    have e4 : charSextet (sextetChar (c % 64)) = some (c % 64) :=
      charSextet_sextetChar _ (by omega)
    simp [utf8toB64, b64toUtf8, e1, e2, e3, e4, hne3, hne4]
    omega
  | a :: b :: c :: d :: rest, h => by
    have ha : a < 256 := h a (by simp)
    have hb : b < 256 := h b (by simp)
    have hc : c < 256 := h c (by simp)
    have ih := b64_decode_encode (d :: rest)
      (fun x hx => h x (by simp at hx ⊢; tauto))
    have e1 : charSextet (sextetChar (a / 4)) = some (a / 4) :=
      charSextet_sextetChar _ (by omega)
    have e2 : charSextet (sextetChar (a % 4 * 16 + b / 16))
        = some (a % 4 * 16 + b / 16) :=
      charSextet_sextetChar _ (by omega)
    have hne3 : sextetChar (b % 16 * 4 + c / 64) ≠ '=' :=
      sextetChar_ne_pad _ (by omega)
    have e3 : charSextet (sextetChar (b % 16 * 4 + c / 64))
        = some (b % 16 * 4 + c / 64) :=
      charSextet_sextetChar _ (by omega)
    have hne4 : sextetChar (c % 64) ≠ '=' := sextetChar_ne_pad _ (by omega)
    have e4 : charSextet (sextetChar (c % 64)) = some (c % 64) :=
      charSextet_sextetChar _ (by omega)
    simp only [utf8toB64, b64toUtf8, e1, e2, e3, e4, ih]
    simp [hne3, hne4]
    omega

/-- Encoding a successfully decoded base64 string gives it back. -/
theorem b64_encode_decode :
    ∀ (cs : List Char) (bs : List Nat),
      b64toUtf8 cs = some bs → utf8toB64 bs = cs
  | [], bs, h => by
    injection h with h'
    subst h'
    rfl
  | [c1], bs, h => by
    rw [show b64toUtf8 [c1] = none from rfl] at h
    exact absurd h (by simp)
  | [c1, c2], bs, h => by
    rw [show b64toUtf8 [c1, c2] = none from rfl] at h
    exact absurd h (by simp)
  | [c1, c2, c3], bs, h => by
    rw [show b64toUtf8 [c1, c2, c3] = none from rfl] at h
    exact absurd h (by simp)
  | c1 :: c2 :: c3 :: c4 :: rest, bs, h => by
    simp only [b64toUtf8] at h
    cases h1 : charSextet c1 with
    | none => simp only [h1] at h; exact absurd h (by simp)
    | some s1 =>
    cases h2 : charSextet c2 with
    | none => simp only [h1, h2] at h; exact absurd h (by simp)
    | some s2 =>
    simp only [h1, h2] at h
    obtain ⟨hs1lt, hs1⟩ := sextetChar_charSextet h1
    obtain ⟨hs2lt, hs2⟩ := sextetChar_charSextet h2
    by_cases hc3 : c3 = '='
    · subst hc3
      rw [if_pos rfl] at h
      by_cases hc4 : c4 = '=' ∧ rest = []
      · rw [if_pos hc4] at h
        obtain ⟨hc4', hrest⟩ := hc4
        subst hc4'; subst hrest
        by_cases hp : s2 % 16 = 0
        · rw [if_pos hp] at h
          injection h with h'
          subst h'
          simp only [utf8toB64]
          have e1 : (s1 * 4 + s2 / 16) / 4 = s1 := by omega
          have e2 : (s1 * 4 + s2 / 16) % 4 * 16 = s2 := by omega
          rw [e1, e2, hs1, hs2]
        · rw [if_neg hp] at h
          exact absurd h (by simp)
      · rw [if_neg hc4] at h
        exact absurd h (by simp)
    · rw [if_neg hc3] at h
      cases h3 : charSextet c3 with
      | none => simp only [h3] at h; exact absurd h (by simp)
      | some s3 =>
      simp only [h3] at h
      obtain ⟨hs3lt, hs3⟩ := sextetChar_charSextet h3
      by_cases hc4 : c4 = '='
      · subst hc4
        rw [if_pos rfl] at h
        by_cases hrest : rest = []
        · subst hrest
          rw [if_pos rfl] at h
          by_cases hp : s3 % 4 = 0
          · rw [if_pos hp] at h
            injection h with h'
            subst h'
            simp only [utf8toB64]
            have e1 : (s1 * 4 + s2 / 16) / 4 = s1 := by omega
            have e2 : (s1 * 4 + s2 / 16) % 4 * 16
                + (s2 % 16 * 16 + s3 / 4) / 16 = s2 := by omega
            have e3 : (s2 % 16 * 16 + s3 / 4) % 16 * 4 = s3 := by omega
            rw [e1, e2, e3, hs1, hs2, hs3]
          · rw [if_neg hp] at h
            exact absurd h (by simp)
        · rw [if_neg hrest] at h
          exact absurd h (by simp)
      · rw [if_neg hc4] at h
        cases h4 : charSextet c4 with
        | none => simp only [h4] at h; exact absurd h (by simp)
        | some s4 =>
        cases hrec : b64toUtf8 rest with
        | none => simp only [h4, hrec] at h; exact absurd h (by simp)
        | some tail =>
        simp only [h4, hrec] at h
        obtain ⟨hs4lt, hs4⟩ := sextetChar_charSextet h4
        injection h with h'
        subst h'
        have ih := b64_encode_decode rest tail hrec
        simp only [utf8toB64]
        have e1 : (s1 * 4 + s2 / 16) / 4 = s1 := by omega
        have e2 : (s1 * 4 + s2 / 16) % 4 * 16
            + (s2 % 16 * 16 + s3 / 4) / 16 = s2 := by omega
        have e3 : (s2 % 16 * 16 + s3 / 4) % 16 * 4
            + (s3 % 4 * 64 + s4) / 64 = s3 := by omega
        have e4 : (s3 % 4 * 64 + s4) % 64 = s4 := by omega
        rw [e1, e2, e3, e4, hs1, hs2, hs3, hs4, ih]

/-- C7: the mocknet base64 helpers are mutually inverse —
`b64toUtf8 (utf8toB64 y) = y` for every UTF-8 byte sequence `y` and
`utf8toB64 (b64toUtf8 x) = x` for every valid (canonically decodable)
base64 string `x`; in particular `b64toUtf8 "IkVjaG8i"` is the UTF-8 of
`"Echo"` surrounded by double quotes, and `utf8toB64` of that string is
`"IkVjaG8i"`. -/
theorem base64_roundtrip (bs : List Nat) (cs : List Char) (bs' : List Nat)
    (hb : ∀ x ∈ bs, x < 256) (hd : b64toUtf8 cs = some bs') :
    b64toUtf8 (utf8toB64 bs) = some bs
    ∧ utf8toB64 bs' = cs
    ∧ b64toUtf8 "IkVjaG8i".toList = some [34, 69, 99, 104, 111, 34]
    ∧ utf8toB64 [34, 69, 99, 104, 111, 34] = "IkVjaG8i".toList := by
  refine ⟨b64_decode_encode bs hb, b64_encode_decode cs bs' hd, ?_, ?_⟩
  · decide
  · decide

/-- Witness for the base64 round-trip theorem at the spec's test vector:
the UTF-8 bytes of `"Echo"` in double quotes and the base64 string
`IkVjaG8i`. -/
theorem base64_roundtrip_witness :
    b64toUtf8 (utf8toB64 [34, 69, 99, 104, 111, 34])
      = some [34, 69, 99, 104, 111, 34]
    ∧ utf8toB64 [34, 69, 99, 104, 111, 34] = "IkVjaG8i".toList := by
  have h := base64_roundtrip [34, 69, 99, 104, 111, 34] "IkVjaG8i".toList
    [34, 69, 99, 104, 111, 34] (by decide) (by decide)
  exact ⟨h.1, h.2.1⟩

end Fadroma
